import Mathlib

/-!
Verification of the kubefed federated-informer and unmanaged-dispatcher
sources.  The definitions below are a shallow embedding of
`pkg/controller/util/federated_informer.go` and of the unmanaged
dispatcher file (`unmanagedDispatcherImpl`): Go maps become association
lists, channels become natural-number identities with an explicit set of
closed channels, and the cluster-registry event handlers become pure
state-transition functions.
-/

namespace Kubefed

/-- Abstract stand-in for a `ResourceClient` built by the client factory. -/
abbrev Client := Nat

/-- One entry of `cluster.Status.Conditions` (only the fields the code
reads: `Type` and `Status`). -/
structure ClusterCondition where
  type : String
  status : String
deriving DecidableEq

/-- `fedcommon.ClusterReady`. -/
def ClusterReady : String := "Ready"

/-- `apiv1.ConditionTrue`. -/
def ConditionTrue : String := "True"

/-- A `fedv1a1.FederatedCluster` restricted to the fields the embedded
code reads: name, spec (abstracted to a number, compared for equality as
`reflect.DeepEqual` does), annotations, and status conditions.  All
clusters live in the single federation namespace the informer watches, so
the store key `namespace/name` is represented by `name` alone. -/
structure FederatedCluster where
  name : String
  spec : Nat
  annotations : List (String × String)
  conditions : List ClusterCondition
deriving DecidableEq

/-- `IsClusterReady` from federated_informer.go: scans the status
conditions for a `ClusterReady` condition whose status is
`ConditionTrue`. -/
def IsClusterReady (cluster : FederatedCluster) : Bool :=
  cluster.conditions.any fun cond =>
    cond.type == ClusterReady && cond.status == ConditionTrue

/-- An item of the cluster-registry cache: either a `FederatedCluster` or
an object of the wrong type (the defensive branches guard against the
latter). -/
inductive StoreItem
  | cluster (c : FederatedCluster)
  | other (payload : Nat)
deriving DecidableEq

/-- Association-list lookup, modelling a Go map read. -/
def lookupKey {α : Type} (l : List (String × α)) (k : String) : Option α :=
  match l with
  | [] => none
  | (k1, v) :: rest => if k1 = k then some v else lookupKey rest k

/-- Removal of a key, modelling Go `delete(m, k)`. -/
def eraseKey {α : Type} (l : List (String × α)) (k : String) : List (String × α) :=
  match l with
  | [] => []
  | (k1, v) :: rest =>
      if k1 = k then eraseKey rest k else (k1, v) :: eraseKey rest k

/-- Map assignment `m[k] = v`. -/
def insertKey {α : Type} (l : List (String × α)) (k : String) (v : α) : List (String × α) :=
  (k, v) :: eraseKey l k

/-- Errors surfaced by the federated informer's read path.  `notFound`
is the `"cluster %q not found"` error, `wrongData` the
`"wrong data in FederatedInformerImpl cluster store"` error, and
`clientErr` wraps an error returned by the injected client factory. -/
inductive FedError
  | notFound (name : String)
  | wrongData
  | clientErr (msg : String)
deriving DecidableEq

/-- `getReadyClusterUnlocked`: look the cluster up in the registry cache
by key; a present, well-typed, ready cluster is returned, a present but
unready cluster and an absent key both yield "not found" (`none`), and a
wrong-typed item yields the data-corruption error. -/
def getReadyClusterUnlocked (registry : List (String × StoreItem))
    (name : String) : Except FedError (Option FederatedCluster) :=
  match lookupKey registry name with
  | some (StoreItem.cluster c) =>
      if IsClusterReady c then Except.ok (some c) else Except.ok none
  | some (StoreItem.other _) => Except.error FedError.wrongData
  | none => Except.ok none

/-- `getClientForClusterUnlocked`: resolve the named cluster among ready
clusters and, when found, build a client through the injected factory,
propagating its error; otherwise fail with the informer's error. -/
def getClientForClusterUnlocked
    (clientFactory : FederatedCluster → Except String Client)
    (registry : List (String × StoreItem)) (name : String) :
    Except FedError Client :=
  match getReadyClusterUnlocked registry name with
  | Except.ok (some c) =>
      match clientFactory c with
      | Except.ok cl => Except.ok cl
      | Except.error m => Except.error (FedError.clientErr m)
  | Except.ok none => Except.error (FedError.notFound name)
  | Except.error e => Except.error e

/-- The items of the cluster-registry cache (`store.List()`). -/
def storeItems (registry : List (String × StoreItem)) : List StoreItem :=
  registry.map Prod.snd

/-- Shared body of `GetReadyClusters`/`GetUnreadyClusters`: walk the
cached items, aborting with the data-corruption error at a wrong-typed
item, and collect the clusters satisfying the predicate. -/
def getClustersWhere (items : List StoreItem)
    (p : FederatedCluster → Bool) : Except String (List FederatedCluster) :=
  match items with
  | [] => Except.ok []
  | StoreItem.other _ :: _ =>
      Except.error "wrong data in FederatedInformerImpl cluster store"
  | StoreItem.cluster c :: rest =>
      match getClustersWhere rest p with
      | Except.error e => Except.error e
      | Except.ok l => Except.ok (if p c then c :: l else l)

/-- `GetReadyClusters`. -/
def GetReadyClusters (registry : List (String × StoreItem)) :
    Except String (List FederatedCluster) :=
  getClustersWhere (storeItems registry) IsClusterReady

/-- `GetUnreadyClusters`. -/
def GetUnreadyClusters (registry : List (String × StoreItem)) :
    Except String (List FederatedCluster) :=
  getClustersWhere (storeItems registry) (fun c => !IsClusterReady c)

/-- The clusters among a list of cache items. -/
def clustersOf (items : List StoreItem) : List FederatedCluster :=
  items.filterMap fun it =>
    match it with
    | StoreItem.cluster c => some c
    | StoreItem.other _ => none

/-- One target informer (`informer` struct): its controller's synced
flag, its cache contents (abstracted to numbers), and the identity of its
stop channel. -/
structure TargetInformer where
  stopChan : Nat
  hasSynced : Bool
  store : List Nat
deriving DecidableEq

/-- The mutable state of `federatedInformerImpl`, plus an explicit
channel allocator (`nextChan`) and the list of channels whose `close` has
been signalled, so that cancellation can be reasoned about. -/
structure FedState where
  registry : List (String × StoreItem)
  targetInformers : List (String × TargetInformer)
  clusterChan : Nat
  nextChan : Nat
  closed : List Nat
deriving DecidableEq

/-- `addCluster`: build a client for the named cluster (via
`getClientForClusterUnlocked`, so the cluster must be present and ready
in the registry cache and the factory must succeed); on success store a
fresh target informer (fresh stop channel, unsynced, empty cache) under
the cluster's name, on failure only log. -/
def addCluster (clientFactory : FederatedCluster → Except String Client)
    (cluster : FederatedCluster) (s : FedState) : FedState :=
  match getClientForClusterUnlocked clientFactory s.registry cluster.name with
  | Except.ok _ =>
      { s with
        targetInformers := insertKey s.targetInformers cluster.name
          { stopChan := s.nextChan, hasSynced := false, store := [] },
        nextChan := s.nextChan + 1 }
  | Except.error _ => s

/-- `deleteCluster`: close the stop channel of the cluster's target
informer when one exists, then delete the map entry. -/
def deleteCluster (cluster : FederatedCluster) (s : FedState) : FedState :=
  match lookupKey s.targetInformers cluster.name with
  | some ti =>
      { s with
        closed := ti.stopChan :: s.closed,
        targetInformers := eraseKey s.targetInformers cluster.name }
  | none => { s with targetInformers := eraseKey s.targetInformers cluster.name }

/-- A primitive action performed by `Stop`: closing a stop channel or
removing a map entry. -/
inductive StopAction
  | close (ch : Nat)
  | remove (name : String)
deriving DecidableEq

/-- The per-entry portion of the `Stop` action trace: for each map entry
in iteration order, close its channel and then remove it. -/
def entryStopTrace (l : List (String × TargetInformer)) : List StopAction :=
  l.flatMap fun p => [StopAction.close p.2.stopChan, StopAction.remove p.1]

/-- The full action trace of `Stop`: close the cluster-registry
informer's channel, then handle each target informer. -/
def stopTrace (s : FedState) : List StopAction :=
  StopAction.close s.clusterChan :: entryStopTrace s.targetInformers

/-- The state after `Stop`: every channel closed, the target-informer map
empty. -/
def Stop (s : FedState) : FedState :=
  { s with
    targetInformers := [],
    closed := s.closed ++ s.clusterChan :: s.targetInformers.map (fun p => p.2.stopChan) }

/-- `federatedStoreImpl.ListFromCluster` (errors cannot occur: a cache
store list never fails): the named cluster's cached objects, or an empty
result when it has no active entry.  Also the `getClusterData` snapshot
taken before firing the unavailable callback. -/
def listFromCluster (s : FedState) (name : String) : List Nat :=
  match lookupKey s.targetInformers name with
  | some ti => ti.store
  | none => []

/-- The collection loop of `federatedStoreImpl.ClustersSynced`: find each
named cluster's target informer, failing when one is missing. -/
def collectInformers (s : FedState) :
    List FederatedCluster → Option (List TargetInformer)
  | [] => some []
  | c :: rest =>
      match lookupKey s.targetInformers c.name with
      | some ti => (collectInformers s rest).map fun l => ti :: l
      | none => none

/-- `federatedStoreImpl.ClustersSynced`: false when the entry count and
the list length differ or some named cluster has no entry; otherwise true
exactly when every collected informer reports synced. -/
def ClustersSynced (s : FedState) (clusters : List FederatedCluster) : Bool :=
  if s.targetInformers.length ≠ clusters.length then false
  else
    match collectInformers s clusters with
    | none => false
    | some tis => tis.all fun ti => ti.hasSynced

/-- Which of the two `ClusterLifecycleHandlerFuncs` callbacks are
non-nil. -/
structure Lifecycle where
  hasAvailable : Bool
  hasUnavailable : Bool
deriving DecidableEq

/-- A lifecycle callback invocation observed while handling a registry
event. -/
inductive CallbackEvent
  | available (c : FederatedCluster)
  | unavailable (c : FederatedCluster) (data : List Nat)
deriving DecidableEq

/-- A cluster-registry watch event. -/
inductive ClusterEvent
  | add (c : FederatedCluster)
  | update (old cur : FederatedCluster)
  | delete (c : FederatedCluster)
deriving DecidableEq

/-- The `AddFunc` handler body. -/
def handleAdd (clientFactory : FederatedCluster → Except String Client)
    (lc : Lifecycle) (cur : FederatedCluster) (s : FedState) :
    FedState × List CallbackEvent :=
  if IsClusterReady cur then
    (addCluster clientFactory cur s,
     if lc.hasAvailable then [CallbackEvent.available cur] else [])
  else (s, [])

/-- The `DeleteFunc` handler body: snapshot the cluster's cached data
first (only when the unavailable callback is registered), then tear the
entry down, then fire the callback with the snapshot. -/
def handleDelete (lc : Lifecycle) (old : FederatedCluster) (s : FedState) :
    FedState × List CallbackEvent :=
  let data := if lc.hasUnavailable then listFromCluster s old.name else []
  (deleteCluster old s,
   if lc.hasUnavailable then [CallbackEvent.unavailable old data] else [])

/-- The change test of `UpdateFunc`: readiness, spec or annotations
differ between old and new. -/
def clusterChanged (old cur : FederatedCluster) : Bool :=
  (IsClusterReady old != IsClusterReady cur)
    || decide (old.spec ≠ cur.spec)
    || decide (old.annotations ≠ cur.annotations)

/-- The `UpdateFunc` handler body: no-op when nothing relevant changed,
otherwise delete-then-conditional-add with the corresponding callbacks. -/
def handleUpdate (clientFactory : FederatedCluster → Except String Client)
    (lc : Lifecycle) (old cur : FederatedCluster) (s : FedState) :
    FedState × List CallbackEvent :=
  if clusterChanged old cur then
    let data := if lc.hasUnavailable then listFromCluster s old.name else []
    let s1 := deleteCluster old s
    let ev1 := if lc.hasUnavailable then [CallbackEvent.unavailable old data] else []
    if IsClusterReady cur then
      (addCluster clientFactory cur s1,
       ev1 ++ (if lc.hasAvailable then [CallbackEvent.available cur] else []))
    else (s1, ev1)
  else (s, [])

/-- Process one registry watch event: the informer's cache applies the
event to its store before invoking the handler. -/
def processEvent (clientFactory : FederatedCluster → Except String Client)
    (lc : Lifecycle) (s : FedState) :
    ClusterEvent → FedState × List CallbackEvent
  | ClusterEvent.add c =>
      handleAdd clientFactory lc c
        { s with registry := insertKey s.registry c.name (StoreItem.cluster c) }
  | ClusterEvent.update old cur =>
      handleUpdate clientFactory lc old cur
        { s with registry := insertKey s.registry cur.name (StoreItem.cluster cur) }
  | ClusterEvent.delete c =>
      handleDelete lc c { s with registry := eraseKey s.registry c.name }

/-- Well-formedness of a watch event against the current cache contents,
as the informer machinery guarantees: an add is for an unknown key, an
update carries the previously cached object (same name), a delete carries
the cached object. -/
def wfEvent (s : FedState) : ClusterEvent → Prop
  | ClusterEvent.add c => lookupKey s.registry c.name = none
  | ClusterEvent.update old cur =>
      old.name = cur.name ∧
        lookupKey s.registry old.name = some (StoreItem.cluster old)
  | ClusterEvent.delete c =>
      lookupKey s.registry c.name = some (StoreItem.cluster c)

/-- Fold a sequence of watch events through `processEvent`. -/
def processEvents (clientFactory : FederatedCluster → Except String Client)
    (lc : Lifecycle) (s : FedState) : List ClusterEvent → FedState
  | [] => s
  | e :: rest =>
      processEvents clientFactory lc (processEvent clientFactory lc s e).1 rest

/-- Every event of the sequence is well formed in the state it meets. -/
def wfTrace (clientFactory : FederatedCluster → Except String Client)
    (lc : Lifecycle) (s : FedState) : List ClusterEvent → Prop
  | [] => True
  | e :: rest =>
      wfEvent s e ∧
        wfTrace clientFactory lc (processEvent clientFactory lc s e).1 rest

/-- The freshly started informer: empty caches, cluster-registry stop
channel allocated. -/
def initState : FedState :=
  { registry := [], targetInformers := [], clusterChan := 0, nextChan := 1,
    closed := [] }

/-- The claimed invariant: a cluster name has an active target informer
exactly when the registry cache holds a ready cluster under that name
(i.e. the most recent event for the name reported it ready). -/
def Inv (s : FedState) : Prop :=
  ∀ name : String,
    (lookupKey s.targetInformers name).isSome = true ↔
      (∃ c, lookupKey s.registry name = some (StoreItem.cluster c) ∧
        IsClusterReady c = true)

/-- The ready-entry invariant claim exactly as stated: over every client
factory and every well-formed event sequence. -/
def claimC1 : Prop :=
  ∀ (clientFactory : FederatedCluster → Except String Client)
    (lc : Lifecycle) (events : List ClusterEvent),
    wfTrace clientFactory lc initState events →
      Inv (processEvents clientFactory lc initState events)

/-- Modelled from the spec: the per-cluster operation outcomes
(`util.ReconciliationStatus` is not among the provided sources). -/
inductive ReconciliationStatus
  | statusAllOK
  | statusError
  | statusNeedsRecheckMeta
  | statusNeedsRecheckResource
  | statusAlreadyExists
deriving DecidableEq

/-- The outcome of the remote delete call issued by the unmanaged
dispatcher: success, a not-found error, or some other error. -/
inductive ApiError
  | notFound
  | other (msg : String)
deriving DecidableEq

/-- The outcome computation of `unmanagedDispatcherImpl.Delete`'s
operation closure: a not-found delete error is cleared to nil, any
remaining error yields `StatusError`, otherwise `StatusAllOK`. -/
def deleteOutcome (deleteErr : Option ApiError) : ReconciliationStatus :=
  let err : Option ApiError :=
    match deleteErr with
    | some ApiError.notFound => none
    | e => e
  match err with
  | some _ => ReconciliationStatus.statusError
  | none => ReconciliationStatus.statusAllOK

/-- Modelled from the spec: one completed operation as recorded by the
operation dispatcher (`operationDispatcherImpl` is not among the provided
sources) — either all-ok, or a non-ok outcome together with its wrapped
representative error. -/
inductive OpOutcome
  | allOK
  | notOK (err : String)
deriving DecidableEq

/-- Modelled from the spec: the dispatcher's shared counters — the number
of operations initiated and the outcomes recorded so far, in completion
order. -/
structure DispatcherState where
  operationsInitiated : Nat
  recorded : List OpOutcome
deriving DecidableEq

/-- Whether a recorded outcome is the all-ok outcome. -/
def isAllOK (o : OpOutcome) : Bool :=
  match o with
  | OpOutcome.allOK => true
  | OpOutcome.notOK _ => false

/-- The error carried by a recorded outcome, if any. -/
def errOf (o : OpOutcome) : Option String :=
  match o with
  | OpOutcome.allOK => none
  | OpOutcome.notOK e => some e

/-- Modelled from the spec: the accumulated pass/fail flag — true while
every recorded outcome is all-ok. -/
def okSoFar (s : DispatcherState) : Bool :=
  s.recorded.all isAllOK

/-- Modelled from the spec: the first-seen representative error among the
recorded outcomes. -/
def firstError (s : DispatcherState) : Option String :=
  s.recorded.findSome? errOf

/-- Modelled from the spec: `Wait()` — still blocked (`none`) until the
completed count equals the initiated count, then the aggregate flag with
the representative error. -/
def waitResult (s : DispatcherState) : Option (Bool × Option String) :=
  if s.recorded.length = s.operationsInitiated then
    some (okSoFar s, firstError s)
  else none

/-- An `unstructured.Unstructured` object restricted to what the embedded
code touches: its labels and an abstract remainder. -/
structure Unstructured where
  labels : List (String × String)
  payload : Nat
deriving DecidableEq

/-- Modelled from the spec: the ownership ("managed") label key. -/
def managedLabel : String := "kubefed.io/managed"

/-- Modelled from the spec: `util.RemoveManagedLabel` (not among the
provided sources) strips the ownership label from the object, in place in
Go. -/
def RemoveManagedLabel (obj : Unstructured) : Unstructured :=
  { obj with labels := obj.labels.filter fun p => decide (p.1 ≠ managedLabel) }

/-- The body of `unmanagedDispatcherImpl.RemoveManagedLabel`'s closure
over an explicit heap (a list of objects addressed by index): deep-copy
the cached object into a fresh cell, strip the label on the copy, and
return the new heap together with the object handed to the update call. -/
def removeManagedLabelDispatch (heap : List Unstructured) (i : Nat) :
    List Unstructured × Option Unstructured :=
  match heap[i]? with
  | none => (heap, none)
  | some obj =>
      let j := heap.length
      let heap2 := heap ++ [obj]
      let heap3 := heap2.set j (RemoveManagedLabel obj)
      (heap3, heap3[j]?)

/-- A client factory that always fails. -/
def cfFail : FederatedCluster → Except String Client :=
  fun _ => Except.error "no config"

/-- A client factory that always succeeds. -/
def cfOK : FederatedCluster → Except String Client :=
  fun _ => Except.ok 0

/-- No lifecycle callbacks registered. -/
def lcNone : Lifecycle := { hasAvailable := false, hasUnavailable := false }

/-- Both lifecycle callbacks registered. -/
def lcBoth : Lifecycle := { hasAvailable := true, hasUnavailable := true }

/-- A ready condition entry. -/
def readyCond : ClusterCondition := { type := ClusterReady, status := ConditionTrue }

/-- A ready example cluster named c1. -/
def c1ready : FederatedCluster :=
  { name := "c1", spec := 0, annotations := [], conditions := [readyCond] }

/-- An unready example cluster named c1. -/
def c1unready : FederatedCluster :=
  { name := "c1", spec := 0, annotations := [], conditions := [] }

/-- A ready example cluster named c1 with a different spec. -/
def c1readySpec1 : FederatedCluster :=
  { name := "c1", spec := 1, annotations := [], conditions := [readyCond] }

/-- An unready example cluster named c2. -/
def c2unready : FederatedCluster :=
  { name := "c2", spec := 0, annotations := [], conditions := [] }

/-- An example target informer with a synced cache holding one object. -/
def informerEntryA : TargetInformer :=
  { stopChan := 10, hasSynced := true, store := [7] }

/-- An example target informer with a synced empty cache. -/
def informerEntryB : TargetInformer :=
  { stopChan := 11, hasSynced := true, store := [] }

/-- An example registry cache holding one ready and one unready cluster. -/
def registryEx : List (String × StoreItem) :=
  [("c1", StoreItem.cluster c1ready), ("c2", StoreItem.cluster c2unready)]

/-- An example registry cache containing a wrong-typed item. -/
def registryBad : List (String × StoreItem) :=
  [("c1", StoreItem.cluster c1ready), ("x", StoreItem.other 3)]

/-- An example informer state with one ready registered cluster and its
active target informer. -/
def stateEx1 : FedState :=
  { registry := [("c1", StoreItem.cluster c1ready)],
    targetInformers := [("c1", informerEntryA)],
    clusterChan := 0, nextChan := 20, closed := [] }

/-- An example informer state with two active target informers. -/
def stateEx2 : FedState :=
  { registry := registryEx,
    targetInformers := [("a", informerEntryA), ("b", informerEntryB)],
    clusterChan := 0, nextChan := 20, closed := [] }

/-- An example informer state with an unready registered cluster and no
active entry. -/
def stateExUnready : FedState :=
  { registry := [("c1", StoreItem.cluster c1unready)],
    targetInformers := [],
    clusterChan := 0, nextChan := 1, closed := [] }

/-- An example dispatcher state: two initiated operations, one recorded
all-ok outcome and one recorded failure. -/
def dispatcherEx : DispatcherState :=
  { operationsInitiated := 2,
    recorded := [OpOutcome.allOK, OpOutcome.notOK "delete failed"] }

/-- An example object carrying the managed label. -/
def objEx : Unstructured :=
  { labels := [(managedLabel, "true"), ("app", "db")], payload := 5 }

/-- An example cluster named a. -/
def clusterA : FederatedCluster :=
  { name := "a", spec := 0, annotations := [], conditions := [] }

/-- An example cluster named b. -/
def clusterB : FederatedCluster :=
  { name := "b", spec := 0, annotations := [], conditions := [] }

/-! ### Lemmas about the association-list map operations -/

@[simp] theorem lookupKey_nil {α : Type} (k : String) :
    lookupKey ([] : List (String × α)) k = none := rfl

theorem lookupKey_eraseKey_self {α : Type} (l : List (String × α)) (k : String) :
    lookupKey (eraseKey l k) k = none := by
  induction l with
  | nil => rfl
  | cons p rest ih =>
    rcases p with ⟨k1, v⟩
    by_cases h : k1 = k
    · simpa [eraseKey, h] using ih
    · simpa [eraseKey, lookupKey, h] using ih

theorem lookupKey_eraseKey_ne {α : Type} (l : List (String × α)) (k k1 : String)
    (h : k1 ≠ k) : lookupKey (eraseKey l k) k1 = lookupKey l k1 := by
  induction l with
  | nil => rfl
  | cons p rest ih =>
    rcases p with ⟨k2, v⟩
    by_cases hp : k2 = k
    · have hpk : ¬ k2 = k1 := by
        intro hh; apply h; rw [← hh]; exact hp
      rw [show eraseKey ((k2, v) :: rest) k = eraseKey rest k from by
        simp [eraseKey, hp]]
      rw [ih]
      simp [lookupKey, hpk]
    · rw [show eraseKey ((k2, v) :: rest) k = (k2, v) :: eraseKey rest k from by
        simp [eraseKey, hp]]
      by_cases hq : k2 = k1
      · simp [lookupKey, hq]
      · simp only [lookupKey, hq, ite_false, if_false]
        exact ih

@[simp] theorem lookupKey_insertKey_self {α : Type} (l : List (String × α))
    (k : String) (v : α) : lookupKey (insertKey l k v) k = some v := by
  simp [insertKey, lookupKey]

theorem lookupKey_insertKey_ne {α : Type} (l : List (String × α))
    (k k1 : String) (v : α) (h : k1 ≠ k) :
    lookupKey (insertKey l k v) k1 = lookupKey l k1 := by
  have hk : k ≠ k1 := Ne.symm h
  simp [insertKey, lookupKey, hk]
  exact lookupKey_eraseKey_ne l k k1 h

/-! ### C8: idempotent deletion -/

/-- C8: the delete operation closure of the unmanaged dispatcher records
all-ok when the remote delete succeeded or returned not-found, and the
error outcome for any other non-nil delete error. -/
theorem delete_not_found_is_all_ok :
    deleteOutcome (some ApiError.notFound) = ReconciliationStatus.statusAllOK ∧
    deleteOutcome none = ReconciliationStatus.statusAllOK ∧
    ∀ msg, deleteOutcome (some (ApiError.other msg)) =
      ReconciliationStatus.statusError :=
  ⟨rfl, rfl, fun _ => rfl⟩

/-! ### C6: client resolution -/

/-- C6: `getClientForClusterUnlocked` fails with the NotFound error when
the cluster is absent from the registry cache or present but not ready;
when present and ready it invokes the client factory, propagating its
error, and returns a client exactly when the cluster is ready and the
factory succeeds. -/
theorem get_client_for_cluster_spec
    (clientFactory : FederatedCluster → Except String Client)
    (registry : List (String × StoreItem)) (name : String) :
    (lookupKey registry name = none →
      getClientForClusterUnlocked clientFactory registry name =
        Except.error (FedError.notFound name)) ∧
    (∀ c, lookupKey registry name = some (StoreItem.cluster c) →
      IsClusterReady c = false →
      getClientForClusterUnlocked clientFactory registry name =
        Except.error (FedError.notFound name)) ∧
    (∀ c, lookupKey registry name = some (StoreItem.cluster c) →
      IsClusterReady c = true →
      (∀ cl, clientFactory c = Except.ok cl →
        getClientForClusterUnlocked clientFactory registry name = Except.ok cl) ∧
      (∀ m, clientFactory c = Except.error m →
        getClientForClusterUnlocked clientFactory registry name =
          Except.error (FedError.clientErr m))) ∧
    (∀ cl, getClientForClusterUnlocked clientFactory registry name = Except.ok cl →
      ∃ c, lookupKey registry name = some (StoreItem.cluster c) ∧
        IsClusterReady c = true ∧ clientFactory c = Except.ok cl) := by
  refine ⟨?_, ?_, ?_, ?_⟩
  · intro h
    simp [getClientForClusterUnlocked, getReadyClusterUnlocked, h]
  · intro c hc hr
    simp [getClientForClusterUnlocked, getReadyClusterUnlocked, hc, hr]
  · intro c hc hr
    constructor
    · intro cl hcl
      simp [getClientForClusterUnlocked, getReadyClusterUnlocked, hc, hr, hcl]
    · intro m hm
      simp [getClientForClusterUnlocked, getReadyClusterUnlocked, hc, hr, hm]
  · intro cl h
    unfold getClientForClusterUnlocked getReadyClusterUnlocked at h
    cases hl : lookupKey registry name with
    | none => rw [hl] at h; simp at h
    | some it =>
      cases it with
      | other n => rw [hl] at h; simp at h
      | cluster c =>
        rw [hl] at h
        by_cases hr : IsClusterReady c
        · simp only [hr, ite_true] at h
          cases hcf : clientFactory c with
          | ok cl2 =>
            simp [hcf] at h
            exact ⟨c, rfl, hr, by rw [hcf, h]⟩
          | error m =>
            simp [hcf] at h
        · simp only [Bool.not_eq_true] at hr
          simp [hr] at h

/-- Witness for C6 at a concrete registry: the absent, the unready and
the ready cases. -/
theorem get_client_for_cluster_witness :
    getClientForClusterUnlocked cfOK registryEx "c3" =
      Except.error (FedError.notFound "c3") ∧
    getClientForClusterUnlocked cfOK registryEx "c2" =
      Except.error (FedError.notFound "c2") ∧
    getClientForClusterUnlocked cfOK registryEx "c1" = Except.ok 0 :=
  ⟨(get_client_for_cluster_spec cfOK registryEx "c3").1 (by decide),
   (get_client_for_cluster_spec cfOK registryEx "c2").2.1 c2unready (by decide) (by decide),
   ((get_client_for_cluster_spec cfOK registryEx "c1").2.2.1 c1ready (by decide)
      (by decide)).1 0 rfl⟩

/-! ### C7: classification of the registry cache -/

theorem getClustersWhere_ok (items : List StoreItem) (p : FederatedCluster → Bool)
    (h : ∀ it ∈ items, ∃ c, it = StoreItem.cluster c) :
    getClustersWhere items p = Except.ok ((clustersOf items).filter p) := by
  induction items with
  | nil => rfl
  | cons it rest ih =>
    cases it with
    | other n =>
      exact absurd (h (StoreItem.other n) (List.mem_cons_self _ _)) (by simp)
    | cluster c =>
      have hrest : ∀ it ∈ rest, ∃ c, it = StoreItem.cluster c := by
        intro it hit
        exact h it (List.mem_cons_of_mem _ hit)
      rw [show getClustersWhere (StoreItem.cluster c :: rest) p =
            (match getClustersWhere rest p with
             | Except.error e => Except.error e
             | Except.ok l => Except.ok (if p c then c :: l else l)) from rfl]
      rw [ih hrest]
      by_cases hp : p c
      · simp [clustersOf, List.filter_cons, hp]
      · simp [clustersOf, List.filter_cons, hp]

theorem getClustersWhere_error (items : List StoreItem) (p : FederatedCluster → Bool)
    (h : ∃ n, StoreItem.other n ∈ items) :
    ∃ e, getClustersWhere items p = Except.error e := by
  induction items with
  | nil =>
    rcases h with ⟨n, hn⟩
    exact absurd hn (by simp)
  | cons it rest ih =>
    cases it with
    | other n => exact ⟨_, rfl⟩
    | cluster c =>
      rcases h with ⟨n, hn⟩
      rcases List.mem_cons.mp hn with heq | hmem
      · exact absurd heq (by simp)
      · rcases ih ⟨n, hmem⟩ with ⟨e, he⟩
        refine ⟨e, ?_⟩
        rw [show getClustersWhere (StoreItem.cluster c :: rest) p =
              (match getClustersWhere rest p with
               | Except.error e => Except.error e
               | Except.ok l => Except.ok (if p c then c :: l else l)) from rfl]
        rw [he]

/-- C7: over a well-typed registry cache, `GetReadyClusters` returns
exactly the cached clusters whose readiness condition is true and
`GetUnreadyClusters` exactly those whose readiness condition is not true
(so the two partition the cache); if the cache holds any wrong-typed
item, both operations return the data-corruption error instead. -/
theorem ready_unready_partition (registry : List (String × StoreItem)) :
    ((∀ it ∈ storeItems registry, ∃ c, it = StoreItem.cluster c) →
      GetReadyClusters registry =
        Except.ok ((clustersOf (storeItems registry)).filter IsClusterReady) ∧
      GetUnreadyClusters registry =
        Except.ok ((clustersOf (storeItems registry)).filter
          (fun c => !IsClusterReady c)) ∧
      (∀ c ∈ clustersOf (storeItems registry),
        (c ∈ (clustersOf (storeItems registry)).filter IsClusterReady ↔
          IsClusterReady c = true) ∧
        (c ∈ (clustersOf (storeItems registry)).filter (fun c => !IsClusterReady c) ↔
          IsClusterReady c = false))) ∧
    ((∃ n, StoreItem.other n ∈ storeItems registry) →
      (∃ e, GetReadyClusters registry = Except.error e) ∧
      (∃ e, GetUnreadyClusters registry = Except.error e)) := by
  constructor
  · intro h
    refine ⟨getClustersWhere_ok _ _ h, getClustersWhere_ok _ _ h, ?_⟩
    intro c hc
    constructor
    · constructor
      · intro hmem
        exact (List.mem_filter.mp hmem).2
      · intro hr
        exact List.mem_filter.mpr ⟨hc, hr⟩
    · constructor
      · intro hmem
        have := (List.mem_filter.mp hmem).2
        simpa using this
      · intro hr
        exact List.mem_filter.mpr ⟨hc, by simp [hr]⟩
  · intro h
    exact ⟨getClustersWhere_error _ _ h, getClustersWhere_error _ _ h⟩

/-- Witness for C7: on a concrete cache with one ready and one unready
cluster the classification is exact, and on a cache with a wrong-typed
item both reads fail. -/
theorem ready_unready_partition_witness :
    GetReadyClusters registryEx = Except.ok [c1ready] ∧
    GetUnreadyClusters registryEx = Except.ok [c2unready] ∧
    (∃ e, GetReadyClusters registryBad = Except.error e) := by
  have hall : ∀ it ∈ storeItems registryEx, ∃ c, it = StoreItem.cluster c := by
    intro it hit
    have hor : it = StoreItem.cluster c1ready ∨ it = StoreItem.cluster c2unready := by
      simpa [storeItems, registryEx] using hit
    rcases hor with rfl | rfl
    · exact ⟨c1ready, rfl⟩
    · exact ⟨c2unready, rfl⟩
  refine ⟨?_, ?_, ((ready_unready_partition registryBad).2 ⟨3, by decide⟩).1⟩
  · rw [((ready_unready_partition registryEx).1 hall).1]; rfl
  · rw [((ready_unready_partition registryEx).1 hall).2.1]; rfl

/-! ### C4: aggregate synced check -/

theorem collectInformers_all_iff (s : FedState) (cs : List FederatedCluster) :
    (match collectInformers s cs with
     | none => false
     | some tis => tis.all fun ti => ti.hasSynced) = true ↔
      ∀ c ∈ cs, ∃ ti, lookupKey s.targetInformers c.name = some ti ∧
        ti.hasSynced = true := by
  induction cs with
  | nil => simp [collectInformers]
  | cons c rest ih =>
    cases hl : lookupKey s.targetInformers c.name with
    | none =>
      rw [show collectInformers s (c :: rest) = none from by
        simp [collectInformers, hl]]
      simp only [Bool.false_eq_true, false_iff]
      intro hall
      rcases hall c (List.mem_cons_self _ _) with ⟨ti, hti, _⟩
      rw [hl] at hti
      exact absurd hti (by simp)
    | some ti =>
      cases hrest : collectInformers s rest with
      | none =>
        rw [show collectInformers s (c :: rest) = none from by
          simp [collectInformers, hl, hrest]]
        rw [hrest] at ih
        simp only [Bool.false_eq_true, false_iff] at ih ⊢
        intro hall
        exact ih fun c2 hc2 => hall c2 (List.mem_cons_of_mem _ hc2)
      | some tis =>
        rw [show collectInformers s (c :: rest) = some (ti :: tis) from by
          simp [collectInformers, hl, hrest]]
        rw [hrest] at ih
        simp only [List.all_cons, Bool.and_eq_true] at ih ⊢
        constructor
        · rintro ⟨hsync, hall⟩
          intro c2 hc2
          rcases List.mem_cons.mp hc2 with rfl | hc2
          · exact ⟨ti, hl, hsync⟩
          · exact ih.mp hall c2 hc2
        · intro hall
          rcases hall c (List.mem_cons_self _ _) with ⟨ti2, hti2, hsync2⟩
          rw [hl] at hti2
          injection hti2 with hti2
          subst hti2
          exact ⟨hsync2, ih.mpr fun c2 hc2 => hall c2 (List.mem_cons_of_mem _ hc2)⟩

/-- C4: `ClustersSynced(clusters)` returns true exactly when (a) the
number of active target informers equals the length of the given cluster
list, (b) every cluster named in the list has an active entry, and (c)
every such entry reports synced. -/
theorem clusters_synced_iff (s : FedState) (clusters : List FederatedCluster) :
    ClustersSynced s clusters = true ↔
      (s.targetInformers.length = clusters.length ∧
       (∀ c ∈ clusters, (lookupKey s.targetInformers c.name).isSome = true) ∧
       (∀ c ∈ clusters, ∀ ti, lookupKey s.targetInformers c.name = some ti →
          ti.hasSynced = true)) := by
  unfold ClustersSynced
  by_cases hlen : s.targetInformers.length = clusters.length
  · rw [if_neg (by simp [hlen])]
    rw [collectInformers_all_iff s clusters]
    constructor
    · intro hall
      refine ⟨hlen, ?_, ?_⟩
      · intro c hc
        rcases hall c hc with ⟨ti, hti, _⟩
        simp [hti]
      · intro c hc ti hti
        rcases hall c hc with ⟨ti2, hti2, hsync2⟩
        rw [hti] at hti2
        injection hti2 with hti2
        rw [← hti2] at hsync2
        exact hsync2
    · rintro ⟨_, hsome, hsync⟩
      intro c hc
      rcases Option.isSome_iff_exists.mp (hsome c hc) with ⟨ti, hti⟩
      exact ⟨ti, hti, hsync c hc ti hti⟩
  · rw [if_pos (by simpa using hlen)]
    simp only [Bool.false_eq_true, false_iff]
    intro hcontra
    exact hlen hcontra.1

/-- Witness for C4: on a concrete state with two synced informers the
check is true for a matching two-cluster list and false for a
one-cluster list. -/
theorem clusters_synced_witness :
    ClustersSynced stateEx2 [clusterA, clusterB] = true ∧
    ClustersSynced stateEx2 [clusterA] = false := by
  constructor
  · apply (clusters_synced_iff stateEx2 [clusterA, clusterB]).mpr
    refine ⟨by decide, ?_, ?_⟩
    · intro c hc
      rcases List.mem_cons.mp hc with rfl | hc
      · decide
      rcases List.mem_cons.mp hc with rfl | hc
      · decide
      · exact absurd hc (List.not_mem_nil _)
    · intro c hc ti hti
      have hlook : ∀ cl : FederatedCluster, cl = clusterA ∨ cl = clusterB →
          ∀ t : TargetInformer,
            lookupKey stateEx2.targetInformers cl.name = some t →
            t.hasSynced = true := by
        rintro cl (rfl | rfl) t ht
        · have h2 : lookupKey stateEx2.targetInformers clusterA.name =
              some informerEntryA := by decide
          rw [h2] at ht
          injection ht with ht
          rw [← ht]
          decide
        · have h2 : lookupKey stateEx2.targetInformers clusterB.name =
              some informerEntryB := by decide
          rw [h2] at ht
          injection ht with ht
          rw [← ht]
          decide
      rcases List.mem_cons.mp hc with rfl | hc
      · exact hlook _ (Or.inl rfl) ti hti
      rcases List.mem_cons.mp hc with rfl | hc
      · exact hlook _ (Or.inr rfl) ti hti
      · exact absurd hc (List.not_mem_nil _)
  · have hne : ¬ (stateEx2.targetInformers.length = [clusterA].length ∧
        (∀ c ∈ [clusterA], (lookupKey stateEx2.targetInformers c.name).isSome = true) ∧
        (∀ c ∈ [clusterA], ∀ ti,
          lookupKey stateEx2.targetInformers c.name = some ti →
            ti.hasSynced = true)) := by
      rintro ⟨hlen, -, -⟩
      exact absurd hlen (by decide)
    have := (clusters_synced_iff stateEx2 [clusterA]).not.mpr hne
    cases hval : ClustersSynced stateEx2 [clusterA] with
    | true => exact absurd hval this
    | false => rfl

/-! ### C2: dispatcher Wait -/

theorem okSoFar_iff (s : DispatcherState) :
    okSoFar s = true ↔ ∀ o ∈ s.recorded, o = OpOutcome.allOK := by
  unfold okSoFar
  rw [List.all_eq_true]
  constructor
  · intro h o ho
    have h2 := h o ho
    cases o with
    | allOK => rfl
    | notOK e => simp [isAllOK] at h2
  · intro h o ho
    rw [h o ho]
    rfl

theorem findSome_errOf_none (l : List OpOutcome)
    (h : ∀ o ∈ l, o = OpOutcome.allOK) : l.findSome? errOf = none := by
  induction l with
  | nil => rfl
  | cons o rest ih =>
    have ho := h o (List.mem_cons_self _ _)
    subst ho
    rw [List.findSome?_cons]
    exact ih fun o ho => h o (List.mem_cons_of_mem _ ho)

theorem findSome_errOf_some (l : List OpOutcome)
    (h : ¬ ∀ o ∈ l, o = OpOutcome.allOK) :
    ∃ e, l.findSome? errOf = some e := by
  induction l with
  | nil => exact absurd (by simp) h
  | cons o rest ih =>
    cases o with
    | notOK e => exact ⟨e, by rw [List.findSome?_cons]; rfl⟩
    | allOK =>
      have h2 : ¬ ∀ o ∈ rest, o = OpOutcome.allOK := by
        intro hall
        apply h
        intro o ho
        rcases List.mem_cons.mp ho with rfl | ho
        · rfl
        · exact hall o ho
      rcases ih h2 with ⟨e, he⟩
      exact ⟨e, by rw [List.findSome?_cons]; exact he⟩

/-- C2: `Wait()` on a dispatcher pass yields a result only when exactly
as many completions are recorded as operations were initiated; the result
is `(true, nil)` exactly when every recorded outcome was all-ok, and
otherwise it is `false` together with one representative non-nil
error. -/
theorem wait_spec (s : DispatcherState) :
    ((waitResult s).isSome = true ↔
      s.recorded.length = s.operationsInitiated) ∧
    (s.recorded.length = s.operationsInitiated →
      ((waitResult s = some (true, none)) ↔
        ∀ o ∈ s.recorded, o = OpOutcome.allOK) ∧
      ((¬ ∀ o ∈ s.recorded, o = OpOutcome.allOK) →
        ∃ e, waitResult s = some (false, some e))) := by
  constructor
  · unfold waitResult
    by_cases h : s.recorded.length = s.operationsInitiated
    · simp [h]
    · simp [h]
  · intro hlen
    constructor
    · constructor
      · intro h
        unfold waitResult at h
        rw [if_pos hlen] at h
        injection h with h
        exact (okSoFar_iff s).mp (Prod.ext_iff.mp h).1
      · intro hall
        unfold waitResult
        rw [if_pos hlen]
        rw [show okSoFar s = true from (okSoFar_iff s).mpr hall]
        rw [show firstError s = none from findSome_errOf_none s.recorded hall]
    · intro hnot
      have h1 : okSoFar s = false := by
        cases hok : okSoFar s with
        | true => exact absurd ((okSoFar_iff s).mp hok) hnot
        | false => rfl
      rcases findSome_errOf_some s.recorded hnot with ⟨e, he⟩
      refine ⟨e, ?_⟩
      unfold waitResult
      rw [if_pos hlen, h1]
      rw [show firstError s = some e from he]

/-- Witness for C2 at a concrete dispatcher pass of two initiated
operations, one failed: the join yields a result and it is false with the
failure's error. -/
theorem wait_spec_witness :
    (waitResult dispatcherEx).isSome = true ∧
    waitResult dispatcherEx = some (false, some "delete failed") := by
  constructor
  · exact ((wait_spec dispatcherEx).1).mpr (by decide)
  · rcases ((wait_spec dispatcherEx).2 (by decide)).2 (by decide) with ⟨e, he⟩
    have he2 : e = "delete failed" := by
      have h3 : waitResult dispatcherEx = some (false, some "delete failed") := by decide
      rw [h3] at he
      injection he with he
      have := (Prod.ext_iff.mp he).2
      injection this with h4
      exact h4.symm
    rw [← he2]
    exact he

/-! ### C9: RemoveManagedLabel does not mutate the cached object -/

/-- C9: the remove-managed-label operation deep-copies the cached object
before stripping the label: after the call the cached cell still holds
the original object, and the object sent to the update call is the
stripped copy. -/
theorem remove_managed_label_frame (heap : List Unstructured) (i : Nat)
    (obj : Unstructured) (h : heap[i]? = some obj) :
    (removeManagedLabelDispatch heap i).1[i]? = some obj ∧
    (removeManagedLabelDispatch heap i).2 = some (RemoveManagedLabel obj) := by
  have hi : i < heap.length := (List.getElem?_eq_some.mp h).1
  unfold removeManagedLabelDispatch
  rw [h]
  constructor
  · show ((heap ++ [obj]).set heap.length (RemoveManagedLabel obj))[i]? = some obj
    rw [List.getElem?_set_ne (by omega)]
    rw [List.getElem?_append_left hi]
    exact h
  · show (_, ((heap ++ [obj]).set heap.length
      (RemoveManagedLabel obj))[heap.length]?).2 = _
    have hlen : heap.length < (heap ++ [obj]).length := by
      simp
    exact List.getElem?_set_eq_of_lt _ hlen

/-- Witness for C9 at a concrete one-object heap: the cached object is
unchanged and the update payload lost exactly the managed label. -/
theorem remove_managed_label_witness :
    (removeManagedLabelDispatch [objEx] 0).1[0]? = some objEx ∧
    (removeManagedLabelDispatch [objEx] 0).2 =
      some { labels := [("app", "db")], payload := 5 } := by
  have h := remove_managed_label_frame [objEx] 0 objEx rfl
  refine ⟨h.1, ?_⟩
  rw [h.2]
  rfl

/-! ### Computation lemmas for the cluster lifecycle operations -/

theorem getClientForClusterUnlocked_ok
    (cf : FederatedCluster → Except String Client) (s : FedState)
    (c : FederatedCluster) (cl : Client)
    (hreg : lookupKey s.registry c.name = some (StoreItem.cluster c))
    (hr : IsClusterReady c = true) (hcl : cf c = Except.ok cl) :
    getClientForClusterUnlocked cf s.registry c.name = Except.ok cl := by
  unfold getClientForClusterUnlocked getReadyClusterUnlocked
  rw [hreg]
  simp [hr, hcl]

theorem addCluster_ok (cf : FederatedCluster → Except String Client)
    (c : FederatedCluster) (s : FedState)
    (hreg : lookupKey s.registry c.name = some (StoreItem.cluster c))
    (hr : IsClusterReady c = true) (hok : ∃ cl, cf c = Except.ok cl) :
    addCluster cf c s =
      { s with
        targetInformers := insertKey s.targetInformers c.name
          { stopChan := s.nextChan, hasSynced := false, store := [] },
        nextChan := s.nextChan + 1 } := by
  rcases hok with ⟨cl, hcl⟩
  unfold addCluster
  rw [getClientForClusterUnlocked_ok cf s c cl hreg hr hcl]

theorem deleteCluster_targetInformers (c : FederatedCluster) (s : FedState) :
    (deleteCluster c s).targetInformers = eraseKey s.targetInformers c.name := by
  unfold deleteCluster
  cases lookupKey s.targetInformers c.name <;> rfl

theorem deleteCluster_registry (c : FederatedCluster) (s : FedState) :
    (deleteCluster c s).registry = s.registry := by
  unfold deleteCluster
  cases lookupKey s.targetInformers c.name <;> rfl

theorem deleteCluster_nextChan (c : FederatedCluster) (s : FedState) :
    (deleteCluster c s).nextChan = s.nextChan := by
  unfold deleteCluster
  cases lookupKey s.targetInformers c.name <;> rfl

theorem deleteCluster_closed_found (c : FederatedCluster) (s : FedState)
    (e : TargetInformer) (h : lookupKey s.targetInformers c.name = some e) :
    (deleteCluster c s).closed = e.stopChan :: s.closed := by
  unfold deleteCluster
  rw [h]

/-! ### C10: addCluster overwrites without cancelling -/

/-- C10: when a target informer already exists for a cluster name,
`addCluster` with a ready registered cluster of that name and a
succeeding client factory overwrites the map entry with a fresh informer
and never signals the old entry's cancellation: the closed-channel set is
untouched, so the replaced entry's cache loop stays uncancelled. -/
theorem add_cluster_overwrites (cf : FederatedCluster → Except String Client)
    (c : FederatedCluster) (s : FedState) (e : TargetInformer)
    (_hentry : lookupKey s.targetInformers c.name = some e)
    (hreg : lookupKey s.registry c.name = some (StoreItem.cluster c))
    (hr : IsClusterReady c = true) (hok : ∃ cl, cf c = Except.ok cl) :
    lookupKey (addCluster cf c s).targetInformers c.name =
      some { stopChan := s.nextChan, hasSynced := false, store := [] } ∧
    (addCluster cf c s).closed = s.closed ∧
    (e.stopChan ∉ s.closed → e.stopChan ∉ (addCluster cf c s).closed) := by
  rw [addCluster_ok cf c s hreg hr hok]
  refine ⟨?_, rfl, ?_⟩
  · exact lookupKey_insertKey_self _ _ _
  · intro h
    exact h

/-- Witness for C10: overwriting the entry of c1 in a concrete state
leaves its old stop channel (10) unsignalled. -/
theorem add_cluster_overwrites_witness :
    lookupKey (addCluster cfOK c1ready stateEx1).targetInformers "c1" =
      some { stopChan := 20, hasSynced := false, store := [] } ∧
    (addCluster cfOK c1ready stateEx1).closed = [] := by
  have h := add_cluster_overwrites cfOK c1ready stateEx1 informerEntryA
    (by decide) (by decide) (by decide) ⟨0, rfl⟩
  exact ⟨h.1, h.2.1⟩

/-! ### C3: Stop cancels everything exactly once -/

theorem entryStopTrace_count_close (l : List (String × TargetInformer)) (ch : Nat) :
    (entryStopTrace l).count (StopAction.close ch) =
      (l.map fun p => p.2.stopChan).count ch := by
  induction l with
  | nil => rfl
  | cons p rest ih =>
    rw [show entryStopTrace (p :: rest) =
        StopAction.close p.2.stopChan :: StopAction.remove p.1 ::
          entryStopTrace rest from rfl]
    rw [show (p :: rest).map (fun q => q.2.stopChan) =
        p.2.stopChan :: rest.map (fun q => q.2.stopChan) from rfl]
    rw [List.count_cons, List.count_cons, List.count_cons, ih]
    simp [beq_iff_eq]

theorem entryStopTrace_adjacent (l : List (String × TargetInformer))
    (p : String × TargetInformer) (hp : p ∈ l) :
    ∃ i, (entryStopTrace l).get? i = some (StopAction.close p.2.stopChan) ∧
      (entryStopTrace l).get? (i + 1) = some (StopAction.remove p.1) := by
  induction l with
  | nil => cases hp
  | cons q rest ih =>
    rcases List.mem_cons.mp hp with rfl | hp
    · exact ⟨0, rfl, rfl⟩
    · rcases ih hp with ⟨i, h1, h2⟩
      refine ⟨i + 2, ?_, ?_⟩
      · show (StopAction.close q.2.stopChan :: StopAction.remove q.1 ::
            entryStopTrace rest).get? (i + 2) = _
        simpa using h1
      · show (StopAction.close q.2.stopChan :: StopAction.remove q.1 ::
            entryStopTrace rest).get? (i + 3) = _
        simpa using h2

/-- C3: `Stop` signals the cancellation of the cluster-registry watch
loop and of every active target informer exactly once each (its trace
closes each stop channel exactly once), removes each entry right after
signalling it, and leaves the target-informer map empty. -/
theorem stop_cancels_once (s : FedState)
    (hnd : (s.targetInformers.map fun p => p.2.stopChan).Nodup)
    (hcc : s.clusterChan ∉ s.targetInformers.map fun p => p.2.stopChan) :
    (stopTrace s).count (StopAction.close s.clusterChan) = 1 ∧
    (∀ p ∈ s.targetInformers,
      (stopTrace s).count (StopAction.close p.2.stopChan) = 1) ∧
    (∀ p ∈ s.targetInformers, ∃ i,
      (stopTrace s).get? i = some (StopAction.close p.2.stopChan) ∧
      (stopTrace s).get? (i + 1) = some (StopAction.remove p.1)) ∧
    (Stop s).targetInformers = [] ∧
    (∀ p ∈ s.targetInformers, p.2.stopChan ∈ (Stop s).closed) := by
  refine ⟨?_, ?_, ?_, rfl, ?_⟩
  · rw [show stopTrace s =
        StopAction.close s.clusterChan :: entryStopTrace s.targetInformers from rfl]
    rw [List.count_cons, entryStopTrace_count_close]
    rw [List.count_eq_zero.mpr (by simpa [beq_iff_eq] using hcc)]
    simp
  · intro p hp
    have hmem : p.2.stopChan ∈ s.targetInformers.map fun q => q.2.stopChan :=
      List.mem_map.mpr ⟨p, hp, rfl⟩
    have hne : p.2.stopChan ≠ s.clusterChan := by
      intro hh
      rw [hh] at hmem
      exact hcc hmem
    rw [show stopTrace s =
        StopAction.close s.clusterChan :: entryStopTrace s.targetInformers from rfl]
    rw [List.count_cons, entryStopTrace_count_close]
    rw [List.count_eq_one_of_mem hnd hmem]
    simp [beq_iff_eq, hne]
    exact Ne.symm hne
  · intro p hp
    rcases entryStopTrace_adjacent s.targetInformers p hp with ⟨i, h1, h2⟩
    refine ⟨i + 1, ?_, ?_⟩
    · show (StopAction.close s.clusterChan ::
          entryStopTrace s.targetInformers).get? (i + 1) = _
      simpa using h1
    · show (StopAction.close s.clusterChan ::
          entryStopTrace s.targetInformers).get? (i + 2) = _
      simpa using h2
  · intro p hp
    show p.2.stopChan ∈ s.closed ++ s.clusterChan ::
      s.targetInformers.map (fun q => q.2.stopChan)
    exact List.mem_append_right _
      (List.mem_cons_of_mem _ (List.mem_map.mpr ⟨p, hp, rfl⟩))

/-- Witness for C3 on a concrete state with two active informers. -/
theorem stop_cancels_once_witness :
    (stopTrace stateEx2).count (StopAction.close 0) = 1 ∧
    (stopTrace stateEx2).count (StopAction.close 10) = 1 ∧
    (Stop stateEx2).targetInformers = [] := by
  have h := stop_cancels_once stateEx2 (by decide) (by decide)
  exact ⟨h.1, h.2.1 ("a", informerEntryA) (by decide), h.2.2.2.1⟩

/-! ### Computation lemmas for processEvent -/

theorem addCluster_closed (cf : FederatedCluster → Except String Client)
    (c : FederatedCluster) (s : FedState) :
    (addCluster cf c s).closed = s.closed := by
  unfold addCluster
  cases getClientForClusterUnlocked cf s.registry c.name <;> rfl

theorem processEvent_add_ready (cf : FederatedCluster → Except String Client)
    (lc : Lifecycle) (c : FederatedCluster) (s : FedState)
    (hr : IsClusterReady c = true) (hok : ∃ cl, cf c = Except.ok cl) :
    (processEvent cf lc s (ClusterEvent.add c)).1.targetInformers =
      insertKey s.targetInformers c.name
        { stopChan := s.nextChan, hasSynced := false, store := [] } ∧
    (processEvent cf lc s (ClusterEvent.add c)).1.registry =
      insertKey s.registry c.name (StoreItem.cluster c) := by
  have hstep : (processEvent cf lc s (ClusterEvent.add c)).1 =
      addCluster cf c
        { s with registry := insertKey s.registry c.name (StoreItem.cluster c) } := by
    show (handleAdd cf lc c _).1 = _
    unfold handleAdd
    simp [hr]
  rw [hstep, addCluster_ok cf c _ (lookupKey_insertKey_self _ _ _) hr hok]
  exact ⟨rfl, rfl⟩

theorem processEvent_add_unready (cf : FederatedCluster → Except String Client)
    (lc : Lifecycle) (c : FederatedCluster) (s : FedState)
    (hr : IsClusterReady c = false) :
    (processEvent cf lc s (ClusterEvent.add c)).1.targetInformers =
      s.targetInformers ∧
    (processEvent cf lc s (ClusterEvent.add c)).1.registry =
      insertKey s.registry c.name (StoreItem.cluster c) := by
  have hstep : (processEvent cf lc s (ClusterEvent.add c)).1 =
      { s with registry := insertKey s.registry c.name (StoreItem.cluster c) } := by
    show (handleAdd cf lc c _).1 = _
    unfold handleAdd
    simp [hr]
  rw [hstep]
  exact ⟨rfl, rfl⟩

theorem processEvent_delete_state (cf : FederatedCluster → Except String Client)
    (lc : Lifecycle) (c : FederatedCluster) (s : FedState) :
    (processEvent cf lc s (ClusterEvent.delete c)).1.targetInformers =
      eraseKey s.targetInformers c.name ∧
    (processEvent cf lc s (ClusterEvent.delete c)).1.registry =
      eraseKey s.registry c.name := by
  constructor
  · show (deleteCluster c { s with registry := eraseKey s.registry c.name }).targetInformers = _
    rw [deleteCluster_targetInformers]
  · show (deleteCluster c { s with registry := eraseKey s.registry c.name }).registry = _
    rw [deleteCluster_registry]

theorem processEvent_update_unchanged (cf : FederatedCluster → Except String Client)
    (lc : Lifecycle) (old cur : FederatedCluster) (s : FedState)
    (hch : clusterChanged old cur = false) :
    processEvent cf lc s (ClusterEvent.update old cur) =
      ({ s with registry := insertKey s.registry cur.name (StoreItem.cluster cur) },
       []) := by
  show handleUpdate cf lc old cur _ = _
  unfold handleUpdate
  simp [hch]

theorem processEvent_update_changed_ready (cf : FederatedCluster → Except String Client)
    (lc : Lifecycle) (old cur : FederatedCluster) (s : FedState)
    (hch : clusterChanged old cur = true) (hr : IsClusterReady cur = true) :
    (processEvent cf lc s (ClusterEvent.update old cur)).1 =
      addCluster cf cur (deleteCluster old
        { s with registry := insertKey s.registry cur.name (StoreItem.cluster cur) }) ∧
    (processEvent cf lc s (ClusterEvent.update old cur)).2 =
      (if lc.hasUnavailable then
        [CallbackEvent.unavailable old (listFromCluster s old.name)] else []) ++
      (if lc.hasAvailable then [CallbackEvent.available cur] else []) := by
  constructor
  · show (handleUpdate cf lc old cur _).1 = _
    unfold handleUpdate
    simp [hch, hr]
  · show (handleUpdate cf lc old cur _).2 = _
    unfold handleUpdate
    cases hU : lc.hasUnavailable <;> cases hA : lc.hasAvailable <;>
      simp [hch, hr, hU, hA] <;> rfl

theorem processEvent_update_changed_unready (cf : FederatedCluster → Except String Client)
    (lc : Lifecycle) (old cur : FederatedCluster) (s : FedState)
    (hch : clusterChanged old cur = true) (hr : IsClusterReady cur = false) :
    (processEvent cf lc s (ClusterEvent.update old cur)).1 =
      deleteCluster old
        { s with registry := insertKey s.registry cur.name (StoreItem.cluster cur) } ∧
    (processEvent cf lc s (ClusterEvent.update old cur)).2 =
      (if lc.hasUnavailable then
        [CallbackEvent.unavailable old (listFromCluster s old.name)] else []) := by
  constructor
  · show (handleUpdate cf lc old cur _).1 = _
    unfold handleUpdate
    simp [hch, hr]
  · show (handleUpdate cf lc old cur _).2 = _
    unfold handleUpdate
    cases hU : lc.hasUnavailable <;> simp [hch, hr, hU]
    rfl

/-! ### C5: update events -/

/-- C5 (amended): for an update event with unchanged readiness, spec and
annotations the handler leaves the target informers untouched and fires
no callback; when any of the three changed, the old entry is torn down
first (its stop channel is signalled, and the unavailable callback fires
with the pre-teardown snapshot when registered), and then, only if the
new state is ready, the available callback fires and — the client factory
succeeding for the new cluster — a fresh target informer is created under
the name. -/
theorem update_event_spec (cf : FederatedCluster → Except String Client)
    (lc : Lifecycle) (old cur : FederatedCluster) (s : FedState)
    (hname : old.name = cur.name)
    (hok : ∃ cl, cf cur = Except.ok cl) :
    (clusterChanged old cur = false →
      (processEvent cf lc s (ClusterEvent.update old cur)).1.targetInformers =
        s.targetInformers ∧
      (processEvent cf lc s (ClusterEvent.update old cur)).2 = []) ∧
    (clusterChanged old cur = true →
      ((processEvent cf lc s (ClusterEvent.update old cur)).2 =
        (if lc.hasUnavailable then
          [CallbackEvent.unavailable old (listFromCluster s old.name)] else []) ++
        (if IsClusterReady cur then
          (if lc.hasAvailable then [CallbackEvent.available cur] else []) else [])) ∧
      (∀ e, lookupKey s.targetInformers old.name = some e →
        e.stopChan ∈ (processEvent cf lc s (ClusterEvent.update old cur)).1.closed) ∧
      (IsClusterReady cur = true →
        ∃ ti, lookupKey
          (processEvent cf lc s (ClusterEvent.update old cur)).1.targetInformers
          cur.name = some ti ∧ ti.hasSynced = false ∧ ti.store = []) ∧
      (IsClusterReady cur = false →
        lookupKey
          (processEvent cf lc s (ClusterEvent.update old cur)).1.targetInformers
          cur.name = none)) := by
  constructor
  · intro hch
    rw [processEvent_update_unchanged cf lc old cur s hch]
    exact ⟨rfl, rfl⟩
  · intro hch
    cases hr : IsClusterReady cur with
    | true =>
      have hco := processEvent_update_changed_ready cf lc old cur s hch hr
      refine ⟨?_, ?_, ?_, ?_⟩
      · rw [hco.2]
        simp
      · intro e he
        rw [hco.1]
        rw [addCluster_closed]
        rw [deleteCluster_closed_found old { s with registry := insertKey s.registry cur.name (StoreItem.cluster cur) } e he]
        exact List.mem_cons_self _ _
      · intro _
        rw [hco.1]
        have hreg2 : lookupKey (deleteCluster old { s with registry := insertKey s.registry cur.name (StoreItem.cluster cur) }).registry cur.name = some (StoreItem.cluster cur) := by
          rw [deleteCluster_registry]
          exact lookupKey_insertKey_self _ _ _
        rw [addCluster_ok cf cur _ hreg2 hr hok]
        exact ⟨_, lookupKey_insertKey_self _ _ _, rfl, rfl⟩
      · intro hcontra
        simp at hcontra
    | false =>
      have hco := processEvent_update_changed_unready cf lc old cur s hch hr
      refine ⟨?_, ?_, ?_, ?_⟩
      · rw [hco.2]
        simp
      · intro e he
        rw [hco.1]
        rw [deleteCluster_closed_found old { s with registry := insertKey s.registry cur.name (StoreItem.cluster cur) } e he]
        exact List.mem_cons_self _ _
      · intro hcontra
        simp at hcontra
      · intro _
        rw [hco.1]
        rw [deleteCluster_targetInformers]
        rw [show ({ s with registry := insertKey s.registry cur.name (StoreItem.cluster cur) } : FedState).targetInformers = s.targetInformers from rfl]
        rw [← hname]
        exact lookupKey_eraseKey_self _ _

/-- Witness for C5: a spec change on a ready registered cluster tears the
old entry down (channel 10 closed), fires unavailable with the old cached
objects and available for the new cluster, and installs a fresh entry. -/
theorem update_event_witness :
    (processEvent cfOK lcBoth stateEx1
      (ClusterEvent.update c1ready c1readySpec1)).2 =
      [CallbackEvent.unavailable c1ready [7], CallbackEvent.available c1readySpec1] ∧
    (10 : Nat) ∈ (processEvent cfOK lcBoth stateEx1
      (ClusterEvent.update c1ready c1readySpec1)).1.closed ∧
    (∃ ti, lookupKey (processEvent cfOK lcBoth stateEx1
      (ClusterEvent.update c1ready c1readySpec1)).1.targetInformers
        c1readySpec1.name = some ti ∧ ti.hasSynced = false ∧ ti.store = []) := by
  have h := update_event_spec cfOK lcBoth c1ready c1readySpec1 stateEx1 rfl ⟨0, rfl⟩
  have hch := (h.2 (by decide))
  refine ⟨?_, ?_, hch.2.2.1 (by decide)⟩
  · have he := hch.1
    rw [he]
    decide
  · exact hch.2.1 informerEntryA (by decide)

/-- Counterexample to C5 exactly as stated: on a changed update of a
registered cluster whose new state is ready but whose client
construction fails, the available callback fires yet no fresh
per-cluster entry is created, contradicting the claim that a fresh entry
is created whenever the three-way comparison saw a change and the new
state is ready. -/
theorem update_event_counterexample :
    clusterChanged c1unready c1ready = true ∧
    IsClusterReady c1ready = true ∧
    lookupKey (processEvent cfFail lcBoth stateExUnready
      (ClusterEvent.update c1unready c1ready)).1.targetInformers "c1" = none ∧
    (processEvent cfFail lcBoth stateExUnready
      (ClusterEvent.update c1unready c1ready)).2 =
      [CallbackEvent.unavailable c1unready [], CallbackEvent.available c1ready] := by
  decide

/-! ### C1: the ready-entry invariant -/

theorem addCluster_registry (cf : FederatedCluster → Except String Client)
    (c : FederatedCluster) (s : FedState) :
    (addCluster cf c s).registry = s.registry := by
  unfold addCluster
  cases getClientForClusterUnlocked cf s.registry c.name <;> rfl

theorem addCluster_lookup_self (cf : FederatedCluster → Except String Client)
    (c : FederatedCluster) (s : FedState)
    (hreg : lookupKey s.registry c.name = some (StoreItem.cluster c))
    (hr : IsClusterReady c = true) (hok : ∃ cl, cf c = Except.ok cl) :
    (lookupKey (addCluster cf c s).targetInformers c.name).isSome = true := by
  rw [addCluster_ok cf c s hreg hr hok]
  show (lookupKey (insertKey s.targetInformers c.name
    { stopChan := s.nextChan, hasSynced := false, store := [] }) c.name).isSome = true
  rw [lookupKey_insertKey_self]
  rfl

theorem addCluster_lookup_ne (cf : FederatedCluster → Except String Client)
    (c : FederatedCluster) (s : FedState)
    (hreg : lookupKey s.registry c.name = some (StoreItem.cluster c))
    (hr : IsClusterReady c = true) (hok : ∃ cl, cf c = Except.ok cl)
    (name : String) (hn : name ≠ c.name) :
    lookupKey (addCluster cf c s).targetInformers name =
      lookupKey s.targetInformers name := by
  rw [addCluster_ok cf c s hreg hr hok]
  show lookupKey (insertKey s.targetInformers c.name
    { stopChan := s.nextChan, hasSynced := false, store := [] }) name = _
  exact lookupKey_insertKey_ne _ _ _ _ hn

theorem inv_step (cf : FederatedCluster → Except String Client) (lc : Lifecycle)
    (s : FedState) (e : ClusterEvent)
    (hcf : ∀ c, ∃ cl, cf c = Except.ok cl)
    (hInv : Inv s) (hwf : wfEvent s e) :
    Inv (processEvent cf lc s e).1 := by
  cases e with
  | add c =>
    have hreg : lookupKey s.registry c.name = none := hwf
    cases hr : IsClusterReady c with
    | true =>
      have hco := processEvent_add_ready cf lc c s hr (hcf c)
      intro name
      rw [hco.1, hco.2]
      by_cases hn : name = c.name
      · subst hn
        rw [lookupKey_insertKey_self, lookupKey_insertKey_self]
        constructor
        · intro _
          exact ⟨c, rfl, hr⟩
        · intro _
          rfl
      · rw [lookupKey_insertKey_ne _ _ _ _ hn, lookupKey_insertKey_ne _ _ _ _ hn]
        exact hInv name
    | false =>
      have hco := processEvent_add_unready cf lc c s hr
      intro name
      rw [hco.1, hco.2]
      by_cases hn : name = c.name
      · subst hn
        rw [lookupKey_insertKey_self]
        constructor
        · intro hsome
          rcases (hInv c.name).mp hsome with ⟨c2, hc2, hr2⟩
          rw [hreg] at hc2
          cases hc2
        · rintro ⟨c2, hc2, hr2⟩
          injection hc2 with hc2
          injection hc2 with hc2
          subst hc2
          rw [hr] at hr2
          cases hr2
      · rw [lookupKey_insertKey_ne _ _ _ _ hn]
        exact hInv name
  | delete c =>
    have hco := processEvent_delete_state cf lc c s
    intro name
    rw [hco.1, hco.2]
    by_cases hn : name = c.name
    · subst hn
      rw [lookupKey_eraseKey_self, lookupKey_eraseKey_self]
      simp
    · rw [lookupKey_eraseKey_ne _ _ _ hn, lookupKey_eraseKey_ne _ _ _ hn]
      exact hInv name
  | update old cur =>
    rcases hwf with ⟨hname, hregold⟩
    have hregcur : lookupKey s.registry cur.name = some (StoreItem.cluster old) := by
      rw [← hname]
      exact hregold
    cases hch : clusterChanged old cur with
    | false =>
      have hready : IsClusterReady old = IsClusterReady cur := by
        unfold clusterChanged at hch
        simp only [Bool.or_eq_false_iff, bne_eq_false_iff_eq,
          decide_eq_false_iff_not] at hch
        exact hch.1.1
      rw [processEvent_update_unchanged cf lc old cur s hch]
      intro name
      show (lookupKey s.targetInformers name).isSome = true ↔
        ∃ c2, lookupKey (insertKey s.registry cur.name (StoreItem.cluster cur))
          name = some (StoreItem.cluster c2) ∧ IsClusterReady c2 = true
      by_cases hn : name = cur.name
      · subst hn
        rw [lookupKey_insertKey_self]
        constructor
        · intro hsome
          rcases (hInv cur.name).mp hsome with ⟨c2, hc2, hr2⟩
          rw [hregcur] at hc2
          injection hc2 with hc2
          injection hc2 with hc2
          subst hc2
          exact ⟨cur, rfl, by rw [← hready]; exact hr2⟩
        · rintro ⟨c2, hc2, hr2⟩
          injection hc2 with hc2
          injection hc2 with hc2
          subst hc2
          exact (hInv cur.name).mpr ⟨old, hregcur, by rw [hready]; exact hr2⟩
      · rw [lookupKey_insertKey_ne _ _ _ _ hn]
        exact hInv name
    | true =>
      cases hr : IsClusterReady cur with
      | true =>
        have hco := processEvent_update_changed_ready cf lc old cur s hch hr
        have hreg2 : lookupKey (deleteCluster old { s with registry := insertKey s.registry cur.name (StoreItem.cluster cur) }).registry cur.name = some (StoreItem.cluster cur) := by
          rw [deleteCluster_registry]
          exact lookupKey_insertKey_self _ _ _
        have hR : (processEvent cf lc s (ClusterEvent.update old cur)).1.registry =
            insertKey s.registry cur.name (StoreItem.cluster cur) := by
          rw [hco.1, addCluster_registry, deleteCluster_registry]
        intro name
        rw [hR, hco.1]
        by_cases hn : name = cur.name
        · subst hn
          rw [lookupKey_insertKey_self]
          constructor
          · intro _
            exact ⟨cur, rfl, hr⟩
          · intro _
            exact addCluster_lookup_self cf cur _ hreg2 hr (hcf cur)
        · rw [lookupKey_insertKey_ne _ _ _ _ hn]
          rw [addCluster_lookup_ne cf cur _ hreg2 hr (hcf cur) name hn]
          rw [deleteCluster_targetInformers]
          have hn2 : name ≠ old.name := by
            rw [hname]
            exact hn
          rw [lookupKey_eraseKey_ne _ _ _ hn2]
          exact hInv name
      | false =>
        have hco := processEvent_update_changed_unready cf lc old cur s hch hr
        have hT : (processEvent cf lc s (ClusterEvent.update old cur)).1.targetInformers =
            eraseKey s.targetInformers old.name := by
          rw [hco.1, deleteCluster_targetInformers]
        have hR : (processEvent cf lc s (ClusterEvent.update old cur)).1.registry =
            insertKey s.registry cur.name (StoreItem.cluster cur) := by
          rw [hco.1, deleteCluster_registry]
        intro name
        rw [hT, hR]
        by_cases hn : name = cur.name
        · subst hn
          rw [lookupKey_insertKey_self]
          rw [← hname, lookupKey_eraseKey_self]
          constructor
          · intro hsome
            cases hsome
          · rintro ⟨c2, hc2, hr2⟩
            injection hc2 with hc2
            injection hc2 with hc2
            subst hc2
            rw [hr] at hr2
            cases hr2
        · have hn2 : name ≠ old.name := by
            rw [hname]
            exact hn
          rw [lookupKey_eraseKey_ne _ _ _ hn2]
          rw [lookupKey_insertKey_ne _ _ _ _ hn]
          exact hInv name

/-- C1 (amended): provided client construction succeeds for every
cluster, after any well-formed sequence of add/update/delete registry
events the set of cluster names with an active target informer equals
exactly the set of clusters reported ready by the most recent event for
each name. -/
theorem informer_inv (cf : FederatedCluster → Except String Client)
    (lc : Lifecycle) (events : List ClusterEvent)
    (hcf : ∀ c, ∃ cl, cf c = Except.ok cl)
    (hwf : wfTrace cf lc initState events) :
    Inv (processEvents cf lc initState events) := by
  have hInit : Inv initState := by
    intro name
    constructor
    · intro h
      cases h
    · rintro ⟨c, hc, _⟩
      cases hc
  have main : ∀ (evs : List ClusterEvent) (s : FedState), Inv s →
      wfTrace cf lc s evs → Inv (processEvents cf lc s evs) := by
    intro evs
    induction evs with
    | nil =>
      intro s hs _
      exact hs
    | cons e rest ih =>
      intro s hs hwf2
      exact ih _ (inv_step cf lc s e hcf hs hwf2.1) hwf2.2
  exact main events initState hInit hwf

/-- Witness for C1 (amended): a ready add followed by an unready update,
with a succeeding factory, keeps the invariant. -/
theorem informer_inv_witness :
    Inv (processEvents cfOK lcBoth initState
      [ClusterEvent.add c1ready, ClusterEvent.update c1ready c1unready]) := by
  apply informer_inv cfOK lcBoth
    [ClusterEvent.add c1ready, ClusterEvent.update c1ready c1unready]
  · intro c
    exact ⟨0, rfl⟩
  · refine ⟨rfl, ⟨rfl, by decide⟩, trivial⟩

/-- Counterexample to C1 exactly as stated: with a failing client
factory, a single well-formed add event for a ready cluster leaves the
cluster without an active target informer even though its most recent
event reported it ready, so the invariant does not hold over every event
sequence without the factory proviso. -/
theorem informer_inv_counterexample : ¬ claimC1 := by
  intro h
  have h2 := h cfFail lcNone [ClusterEvent.add c1ready] ⟨rfl, trivial⟩
  have h3 := (h2 "c1").mpr ⟨c1ready, by decide, by decide⟩
  have h4 : (lookupKey (processEvents cfFail lcNone initState
      [ClusterEvent.add c1ready]).targetInformers "c1").isSome = false := by
    decide
  rw [h4] at h3
  cases h3

end Kubefed
